import Mathlib

/-!
Shallow embedding of the tabular ingestion pipeline of this repository
(`excelToDB.py`, `excelToDB-tourism-shortColumnsNames.py`) and proofs of the
specified properties.

Python strings are modelled as lists of Unicode codepoints (`List Nat`); the
helper `ofString` converts a Lean string literal into that representation so
that concrete test cases stay readable.
-/

/-- Codepoint-list view of a string, used to state concrete examples. -/
def ofString (s : String) : List Nat := s.toList.map Char.toNat

/-- Whitespace per the Python regex class `\s` for `str` patterns and `str.strip()`:
space, tab, LF, VT, FF, CR, the file/group/record/unit separators,
NEL, NBSP, and the Unicode space and line/paragraph separator codepoints. -/
def isPySpace (n : Nat) : Bool :=
  decide (n = 32 ∨ (9 ≤ n ∧ n ≤ 13) ∨ (28 ≤ n ∧ n ≤ 31) ∨ n = 133 ∨ n = 160 ∨
    n = 5760 ∨ (8192 ≤ n ∧ n ≤ 8202) ∨ n = 8232 ∨ n = 8233 ∨ n = 8239 ∨
    n = 8287 ∨ n = 12288)

/-- Character class `[\s\-]` of the first substitution: whitespace or hyphen. -/
def isWSH (n : Nat) : Bool := isPySpace n || n == 45

/-- Character class `[A-Z]`. -/
def isUpperAZ (n : Nat) : Bool := decide (65 ≤ n ∧ n ≤ 90)

/-- Character class `[a-z]`. -/
def isLowerAZ (n : Nat) : Bool := decide (97 ≤ n ∧ n ≤ 122)

/-- Character class `[0-9]`. -/
def isDigit09 (n : Nat) : Bool := decide (48 ≤ n ∧ n ≤ 57)

/-- ASCII lowering, the effect of `str.lower()` on the `[A-Z]` range
(codepoints outside that range are left unchanged). -/
def toLow (n : Nat) : Nat := if isUpperAZ n then n + 32 else n

/-- Scanner for `re.sub(r"[\s\-]+", "_", name)`: each maximal run of
whitespace/hyphen characters is replaced by a single underscore (codepoint 95).
The flag records whether the previous character belonged to such a run. -/
def subSpacesGo : Bool → List Nat → List Nat
  | _, [] => []
  | b, c :: cs =>
    if isWSH c then
      if b then subSpacesGo true cs else 95 :: subSpacesGo true cs
    else c :: subSpacesGo false cs

/-- First substitution of `snake_case_convert`:
`name = re.sub(r"[\s\-]+", "_", name)`. -/
def subSpaces (l : List Nat) : List Nat := subSpacesGo false l

/-- Second substitution of `snake_case_convert`:
`name = re.sub("(.)([A-Z][a-z]+)", r"\1_\2", name)`.
Matches are found left to right and do not overlap: a match consumes one
arbitrary non-newline character, one uppercase letter and the following
maximal nonempty lowercase run, and scanning resumes after it. -/
def subCamel1 : List Nat → List Nat
  | [] => []
  | [c] => [c]
  | c1 :: c2 :: cs =>
    if c1 ≠ 10 ∧ isUpperAZ c2 ∧ cs.takeWhile isLowerAZ ≠ [] then
      c1 :: 95 :: c2 :: (cs.takeWhile isLowerAZ ++ subCamel1 (cs.dropWhile isLowerAZ))
    else
      c1 :: subCamel1 (c2 :: cs)
termination_by l => l.length
decreasing_by
  · simp only [List.length_cons]
    have h := (List.dropWhile_sublist (l := cs) isLowerAZ).length_le
    omega
  · simp only [List.length_cons]
    omega

/-- Third substitution of `snake_case_convert`:
`name = re.sub("([a-z0-9])([A-Z])", r"\1_\2", name)`; again non-overlapping
left-to-right matches, each consuming both matched characters. -/
def subCamel2 : List Nat → List Nat
  | [] => []
  | [c] => [c]
  | c1 :: c2 :: cs =>
    if (isLowerAZ c1 || isDigit09 c1) && isUpperAZ c2 then
      c1 :: 95 :: c2 :: subCamel2 cs
    else
      c1 :: subCamel2 (c2 :: cs)
termination_by l => l.length
decreasing_by
  · simp only [List.length_cons]; omega
  · simp only [List.length_cons]; omega

/-- Lowercasing step `name = name.lower()`. -/
def lowerAll (l : List Nat) : List Nat := l.map toLow

/-- Scanner for `re.sub(r"__+", "_", name)`: every maximal run of underscores
is emitted as a single underscore (a run of length one is unchanged either
way, so collapsing all runs coincides with replacing the runs of length at
least two). -/
def collapseGo : Bool → List Nat → List Nat
  | _, [] => []
  | b, c :: cs =>
    if c == 95 then
      if b then collapseGo true cs else 95 :: collapseGo true cs
    else c :: collapseGo false cs

/-- Fifth step of `snake_case_convert`: `name = re.sub(r"__+", "_", name)`. -/
def collapseUnderscores (l : List Nat) : List Nat := collapseGo false l

/-- Removal of trailing characters satisfying `p` (the trailing half of
the Python method `str.strip`). -/
def dropTrailing (p : Nat → Bool) : List Nat → List Nat
  | [] => []
  | c :: cs =>
    match dropTrailing p cs with
    | [] => if p c then [] else [c]
    | r => c :: r

/-- Final step of `snake_case_convert`: `name = name.strip("_")` (the strip argument is the underscore). -/
def stripUnderscores (l : List Nat) : List Nat :=
  dropTrailing (fun c => c == 95) (l.dropWhile (fun c => c == 95))

/-- The column-name normalizer `snake_case_convert` of
`excelToDB-tourism-shortColumnsNames.py`, as the composition of its six
successive statements. -/
def snake_case_convert (l : List Nat) : List Nat :=
  stripUnderscores (collapseUnderscores (lowerAll (subCamel2 (subCamel1 (subSpaces l)))))

/-- The external text-generation step of `generate_natural_column_names`
(the `client.chat.completions.create` call together with the parsing of its
reply into a list of names), abstracted as a collaborator that either returns
replacement labels or fails with an error message. -/
abbrev LlmCollaborator := List (List Nat) → Except String (List (List Nat))

/-- LLM-assisted column renaming `generate_natural_column_names`: on success
the names from the collaborator are converted to snake case; on any error the
function falls back to snake-casing the raw column labels and returns
normally. -/
def generate_natural_column_names (llm : LlmCollaborator)
    (columns : List (List Nat)) : List (List Nat) :=
  match llm columns with
  | Except.ok naturalNames => naturalNames.map snake_case_convert
  | Except.error _ => columns.map snake_case_convert

/-- Statements `create_table_from_csv` issues against the destination
connection. -/
inductive SqlAction where
  | dropTableIfExists (table : String)
  | createTable (table : String) (cols : List (List Nat × String))
deriving DecidableEq, Repr

/-- The `dtype_mapping` dictionary of `create_table_from_csv`; a dtype absent
from the dictionary raises `KeyError` (modelled as `none`). -/
def dtype_mapping : String → Option String
  | "int64" => some "BIGINT"
  | "float64" => some "DECIMAL(10,2)"
  | "object" => some "TEXT"
  | "bool" => some "BOOLEAN"
  | "datetime64[ns]" => some "DATETIME"
  | "timedelta[ns]" => some "TIME"
  | _ => none

/-- The list comprehension building `columns_definitions`: looks every
column dtype up in `dtype_mapping`, in column order, failing like the
`KeyError` of the comprehension if any dtype is unmapped. -/
def mapColumnDefs : List (List Nat × String) → Option (List (List Nat × String))
  | [] => some []
  | (n, d) :: rest =>
    match dtype_mapping d, mapColumnDefs rest with
    | some t, some r => some ((n, t) :: r)
    | _, _ => none

/-- Table provisioning `create_table_from_csv`, for a frame given as its
columns (name, dtype string) and a table name. Returns the statements that
were executed on the connection, paired with the raised error if any.
The `DROP TABLE IF EXISTS` statement is executed first, before the column
definitions are built, so it has already run when an unmapped dtype raises;
the `except` block logs and re-raises that error. -/
def create_table_from_csv (cols : List (List Nat × String)) (table_name : String) :
    List SqlAction × Option String :=
  match mapColumnDefs cols with
  | some defs =>
    ([SqlAction.dropTableIfExists table_name,
      SqlAction.createTable table_name ((ofString "id", "INT AUTO_INCREMENT PRIMARY KEY") :: defs)],
     none)
  | none => ([SqlAction.dropTableIfExists table_name], some "KeyError: unmapped dtype")

/-- Column-index to Excel letter conversion `excel_col_index_to_letter` of
`excelToDB.py`: repeated `divmod(index - 1, 26)` prepending `chr(65 + r)`. -/
def excel_col_index_to_letter : Nat → List Nat
  | 0 => []
  | n + 1 => excel_col_index_to_letter (n / 26) ++ [65 + n % 26]
decreasing_by
  exact Nat.lt_succ_of_le (Nat.div_le_self n 26)

/-- Removal of leading and trailing Python whitespace, `str.strip()`. -/
def pyStripWS (l : List Nat) : List Nat :=
  dropTrailing isPySpace (l.dropWhile isPySpace)

/-- Question-label cleaning `clean_question_text` of `excelToDB.py`:
`re.sub(r"^P\d+_?", "", question_text).strip()` — an initial `P` (codepoint
80) followed by a maximal nonempty digit run and at most one underscore is
removed, then the result is stripped of surrounding whitespace. -/
def clean_question_text (l : List Nat) : List Nat :=
  pyStripWS
    (match l with
     | 80 :: rest =>
       if rest.takeWhile isDigit09 = [] then l
       else
         match rest.dropWhile isDigit09 with
         | 95 :: r2 => r2
         | r => r
     | _ => l)

/-- Test `re.match(r"^P\d+", col)` used by `insert_questions_get_ids` to
decide which columns are survey questions: `P` followed by at least one
digit. -/
def startsWithPNum : List Nat → Bool
  | 80 :: c :: _ => isDigit09 c
  | _ => false

/-- A row of the `questions` table. Per the DDL in `create_tables`, the
columns are `id INT AUTO_INCREMENT PRIMARY KEY`, `question_text TEXT NOT
NULL` and `excel_column_position VARCHAR(5)`; the primary key on `id` is the
only unique index of the table (no UNIQUE constraint is declared on
`question_text`). -/
structure QuestionsRow where
  id : Nat
  question_text : List Nat
  excel_column_position : List Nat
deriving DecidableEq, Repr

/-- State of the `questions` table: its rows in insertion order and the next
`AUTO_INCREMENT` value. -/
structure QuestionsTable where
  rows : List QuestionsRow
  nextId : Nat
deriving DecidableEq, Repr

/-- The `questions` table as (re)created by `create_tables`: empty, with the
auto-increment counter at 1. -/
def create_tables_questions : QuestionsTable := { rows := [], nextId := 1 }

/-- One execution of the statement
`INSERT INTO questions (question_text, excel_column_position) VALUES (...)
ON DUPLICATE KEY UPDATE id=LAST_INSERT_ID(id), question_text=VALUES(...),
excel_column_position=VALUES(...)`.
The `ON DUPLICATE KEY UPDATE` branch applies only when the candidate row
collides with an existing row on some unique index; `create_tables` declares
only the primary key on `id`, and the candidate `id` is the fresh
auto-increment value, so the branch fires only on an `id` collision. -/
def upsertQuestion (st : QuestionsTable) (q pos : List Nat) : QuestionsTable :=
  match st.rows.find? (fun r => r.id == st.nextId) with
  | some dup =>
    { st with
      rows := st.rows.map (fun r =>
        if r.id == dup.id then { r with question_text := q, excel_column_position := pos } else r) }
  | none =>
    { rows := st.rows ++ [{ id := st.nextId, question_text := q, excel_column_position := pos }],
      nextId := st.nextId + 1 }

/-- The follow-up `SELECT id FROM questions WHERE question_text = :question`
with `fetchone()`: the first row whose text matches. -/
def selectIdByText (st : QuestionsTable) (q : List Nat) : Option Nat :=
  (st.rows.find? (fun r => r.question_text == q)).map (fun r => r.id)

/-- The filtering loop of `insert_questions_get_ids`
(`for index, col in enumerate(df.columns)` with `index` starting at `i`):
for each column whose label matches `^P\d+`, record the original label, the
cleaned label and the Excel column letter of its position. -/
def questionItemsGo (i : Nat) : List (List Nat) → List (List Nat × List Nat × List Nat)
  | [] => []
  | col :: rest =>
    (if startsWithPNum col then
      [(col, clean_question_text col, excel_col_index_to_letter (i + 1))]
     else []) ++ questionItemsGo (i + 1) rest

/-- The `data_to_insert` list of `insert_questions_get_ids`: the filtering
loop started at index 0. -/
def questionItems (cols : List (List Nat)) : List (List Nat × List Nat × List Nat) :=
  questionItemsGo 0 cols

/-- The insertion loop of `insert_questions_get_ids`: upsert each item, then
select the id by question text (`fetchone()[0]`; the preceding insert
guarantees a matching row, so the default 0 is never used) and record it
under the original column label. -/
def runQuestionItems (st : QuestionsTable) :
    List (List Nat × List Nat × List Nat) → QuestionsTable × List (List Nat × Nat)
  | [] => (st, [])
  | (orig, q, pos) :: rest =>
    let st1 := upsertQuestion st q pos
    let qid := (selectIdByText st1 q).getD 0
    let r := runQuestionItems st1 rest
    (r.1, (orig, qid) :: r.2)

/-- Question registration `insert_questions_get_ids` of `excelToDB.py`,
taking the column labels of the sheet and the current `questions` table state,
returning the new state and the `question_ids` mapping from original column
label to registry id. -/
def insert_questions_get_ids (cols : List (List Nat)) (st : QuestionsTable) :
    QuestionsTable × List (List Nat × Nat) :=
  runQuestionItems st (questionItems cols)

/-- A spreadsheet cell: either a pandas missing-value marker (detected by
`pd.isnull`) or a present value. -/
inductive Cell where
  | null : Cell
  | val (s : List Nat) : Cell
deriving DecidableEq

/-- The cell translation in `insert_responses`:
`response if not pd.isnull(response) else None`. -/
def storedOf : Cell → Option (List Nat)
  | Cell.null => none
  | Cell.val s => some s

/-- Lookup in the `question_ids` dictionary. -/
def lookupId (qids : List (List Nat × Nat)) (q : List Nat) : Option Nat :=
  (qids.find? (fun p => p.1 == q)).map (fun p => p.2)

/-- The per-row loop of `insert_responses`: for each (column label, cell) of
the row, if the label is in `question_ids`, emit a response record pairing
the registry id with the translated cell value. -/
def insert_responses_row (qids : List (List Nat × Nat))
    (row : List (List Nat × Cell)) : List (Nat × Option (List Nat)) :=
  row.filterMap (fun qc =>
    match lookupId qids qc.1 with
    | some i => some (i, storedOf qc.2)
    | none => none)

/-- Observation predicate: no two consecutive underscores occur in the
codepoint list. -/
def noDUB : List Nat → Bool
  | [] => true
  | [_] => true
  | a :: b :: cs => !(a == 95 && b == 95) && noDUB (b :: cs)

/-- Observation predicate: the list does not start with an underscore. -/
def headNotUS : List Nat → Bool
  | [] => true
  | c :: _ => !(c == 95)

/-- Observation predicate: the last element, if any, does not satisfy `p`. -/
def lastNotSat (p : Nat → Bool) : List Nat → Bool
  | [] => true
  | [c] => !(p c)
  | _ :: cs => lastNotSat p cs

/-! Helper lemmas about the normalization pipeline. -/

theorem mem_takeWhile_imp {p : Nat → Bool} {l : List Nat} {c : Nat}
    (h : c ∈ l.takeWhile p) : c ∈ l := by
  have hs := List.takeWhile_append_dropWhile (p := p) (l := l)
  rw [← hs]
  exact List.mem_append_left _ h

theorem mem_dropWhile_imp {p : Nat → Bool} {l : List Nat} {c : Nat}
    (h : c ∈ l.dropWhile p) : c ∈ l := by
  have hs := List.takeWhile_append_dropWhile (p := p) (l := l)
  rw [← hs]
  exact List.mem_append_right _ h

theorem isWSH_95 : isWSH 95 = false := by decide

theorem isUpperAZ_95 : isUpperAZ 95 = false := by decide

theorem toLow_not_upper (n : Nat) : isUpperAZ (toLow n) = false := by
  unfold toLow
  by_cases h : isUpperAZ n = true
  · simp only [h, if_true]
    simp only [isUpperAZ, decide_eq_true_eq] at h ⊢
    simp only [decide_eq_false_iff_not]
    omega
  · simp only [Bool.not_eq_true] at h
    simp [h]

theorem toLow_not_wsh {n : Nat} (h : isWSH n = false) : isWSH (toLow n) = false := by
  unfold toLow
  by_cases hu : isUpperAZ n = true
  · simp only [hu, if_true]
    simp only [isUpperAZ, decide_eq_true_eq] at hu
    simp only [isWSH, isPySpace, Bool.or_eq_false_iff, decide_eq_false_iff_not, beq_eq_false_iff_ne]
    constructor
    · omega
    · omega
  · simp only [Bool.not_eq_true] at hu
    simp [hu, h]

theorem toLow_eq_self {n : Nat} (h : isUpperAZ n = false) : toLow n = n := by
  simp [toLow, h]

theorem mem_subSpacesGo : ∀ (b : Bool) (l : List Nat), ∀ c ∈ subSpacesGo b l, isWSH c = false := by
  intro b l
  induction l generalizing b with
  | nil => intro c h; simp [subSpacesGo] at h
  | cons a tl ih =>
    intro c h
    cases ha : isWSH a with
    | true =>
      cases b with
      | true =>
        simp only [subSpacesGo, ha, if_true] at h
        exact ih true c h
      | false =>
        simp [subSpacesGo, ha] at h
        rcases h with h95 | h
        · rw [h95]; decide
        · exact ih true c h
    | false =>
      simp [subSpacesGo, ha] at h
      rcases h with hc | h
      · rw [hc]; exact ha
      · exact ih false c h

theorem mem_subCamel1 : ∀ (l : List Nat), ∀ c ∈ subCamel1 l, c ∈ l ∨ c = 95 := by
  intro l
  induction l using subCamel1.induct with
  | case1 => intro c h; simp [subCamel1] at h
  | case2 d => intro c h; simp [subCamel1] at h; simp [h]
  | case3 c1 c2 cs hg ih =>
    intro c h
    rw [subCamel1, if_pos hg] at h
    simp only [List.mem_cons, List.mem_append] at h
    rcases h with h | h | h | h | h
    · exact Or.inl (by simp [h])
    · exact Or.inr h
    · exact Or.inl (by simp [h])
    · exact Or.inl (by simp [mem_takeWhile_imp h])
    · rcases ih c h with h2 | h2
      · exact Or.inl (by simp [mem_dropWhile_imp h2])
      · exact Or.inr h2
  | case4 c1 c2 cs hg ih =>
    intro c h
    rw [subCamel1, if_neg hg] at h
    simp only [List.mem_cons] at h
    rcases h with h | h
    · exact Or.inl (by simp [h])
    · rcases ih c h with h2 | h2
      · exact Or.inl (by simpa using Or.inr h2)
      · exact Or.inr h2

theorem mem_subCamel2 : ∀ (l : List Nat), ∀ c ∈ subCamel2 l, c ∈ l ∨ c = 95 := by
  intro l
  induction l using subCamel2.induct with
  | case1 => intro c h; simp [subCamel2] at h
  | case2 d => intro c h; simp [subCamel2] at h; simp [h]
  | case3 c1 c2 cs hg ih =>
    intro c h
    rw [subCamel2, if_pos hg] at h
    simp only [List.mem_cons] at h
    rcases h with h | h | h | h
    · exact Or.inl (by simp [h])
    · exact Or.inr h
    · exact Or.inl (by simp [h])
    · rcases ih c h with h2 | h2
      · exact Or.inl (by simp [h2])
      · exact Or.inr h2
  | case4 c1 c2 cs hg ih =>
    intro c h
    rw [subCamel2, if_neg hg] at h
    simp only [List.mem_cons] at h
    rcases h with h | h
    · exact Or.inl (by simp [h])
    · rcases ih c h with h2 | h2
      · exact Or.inl (by simpa using Or.inr h2)
      · exact Or.inr h2

theorem mem_collapseGo : ∀ (b : Bool) (l : List Nat), ∀ c ∈ collapseGo b l, c ∈ l ∨ c = 95 := by
  intro b l
  induction l generalizing b with
  | nil => intro c h; simp [collapseGo] at h
  | cons a tl ih =>
    intro c h
    cases h95 : a == 95 with
    | true =>
      cases b with
      | true =>
        simp only [collapseGo, h95, if_true] at h
        rcases ih true c h with h2 | h2
        · exact Or.inl (by simp [h2])
        · exact Or.inr h2
      | false =>
        simp [collapseGo, h95] at h
        rcases h with hc | h
        · exact Or.inr hc
        · rcases ih true c h with h2 | h2
          · exact Or.inl (by simp [h2])
          · exact Or.inr h2
    | false =>
      simp [collapseGo, h95] at h
      rcases h with hc | h
      · exact Or.inl (by simp [hc])
      · rcases ih false c h with h2 | h2
        · exact Or.inl (by simp [h2])
        · exact Or.inr h2

theorem mem_dropTrailing (p : Nat → Bool) : ∀ (l : List Nat), ∀ c ∈ dropTrailing p l, c ∈ l := by
  intro l
  induction l with
  | nil => intro c h; simp [dropTrailing] at h
  | cons a tl ih =>
    intro c h
    simp only [dropTrailing] at h
    cases hdt : dropTrailing p tl with
    | nil =>
      rw [hdt] at h
      by_cases hp : p a = true
      · simp [hp] at h
      · simp only [Bool.not_eq_true] at hp
        simp only [hp, Bool.false_eq_true, if_false, List.mem_singleton] at h
        simp [h]
    | cons r rs =>
      rw [hdt] at h
      simp only [List.mem_cons] at h
      rcases h with hc | h
      · simp [hc]
      · have : c ∈ dropTrailing p tl := by rw [hdt]; simp [h]
        exact List.mem_cons_of_mem a (ih c this)

theorem mem_stripUnderscores : ∀ (l : List Nat), ∀ c ∈ stripUnderscores l, c ∈ l := by
  intro l c h
  unfold stripUnderscores at h
  exact mem_dropWhile_imp (mem_dropTrailing _ _ c h)

theorem subSpacesGo_id : ∀ (l : List Nat), (∀ c ∈ l, isWSH c = false) → ∀ b, subSpacesGo b l = l := by
  intro l
  induction l with
  | nil => intro _ b; cases b <;> rfl
  | cons a tl ih =>
    intro h b
    have ha : isWSH a = false := h a (by simp)
    simp only [subSpacesGo, ha, Bool.false_eq_true, if_false]
    rw [ih (fun c hc => h c (List.mem_cons_of_mem a hc)) false]

theorem subCamel1_id : ∀ (l : List Nat), (∀ c ∈ l, isUpperAZ c = false) → subCamel1 l = l := by
  intro l
  induction l with
  | nil => intro _; simp [subCamel1]
  | cons a tl ih =>
    intro h
    cases tl with
    | nil => simp [subCamel1]
    | cons b bs =>
      have hb : isUpperAZ b = false := h b (by simp)
      rw [subCamel1, if_neg (by simp [hb])]
      rw [ih (fun c hc => h c (List.mem_cons_of_mem a hc))]

theorem subCamel2_id : ∀ (l : List Nat), (∀ c ∈ l, isUpperAZ c = false) → subCamel2 l = l := by
  intro l
  induction l with
  | nil => intro _; simp [subCamel2]
  | cons a tl ih =>
    intro h
    cases tl with
    | nil => simp [subCamel2]
    | cons b bs =>
      have hb : isUpperAZ b = false := h b (by simp)
      rw [subCamel2, if_neg (by simp [hb])]
      rw [ih (fun c hc => h c (List.mem_cons_of_mem a hc))]

theorem lowerAll_id : ∀ (l : List Nat), (∀ c ∈ l, isUpperAZ c = false) → lowerAll l = l := by
  intro l
  induction l with
  | nil => intro _; rfl
  | cons a tl ih =>
    intro h
    simp only [lowerAll, List.map_cons]
    rw [toLow_eq_self (h a (by simp))]
    have := ih (fun c hc => h c (List.mem_cons_of_mem a hc))
    simp only [lowerAll] at this
    rw [this]

theorem noDUB_tail {a : Nat} {tl : List Nat} (h : noDUB (a :: tl) = true) : noDUB tl = true := by
  cases tl with
  | nil => rfl
  | cons b bs =>
    simp only [noDUB, Bool.and_eq_true] at h
    exact h.2

theorem noDUB_cons_of {a : Nat} {r : List Nat}
    (h1 : a ≠ 95 ∨ headNotUS r = true) (h2 : noDUB r = true) : noDUB (a :: r) = true := by
  cases r with
  | nil => rfl
  | cons b bs =>
    simp only [noDUB, Bool.and_eq_true, Bool.not_eq_true']
    refine ⟨?_, h2⟩
    rcases h1 with h1 | h1
    · simp [h1]
    · simp only [headNotUS, Bool.not_eq_true'] at h1
      simp [h1]

theorem headNotUS_collapseGo_true : ∀ (l : List Nat), headNotUS (collapseGo true l) = true := by
  intro l
  induction l with
  | nil => rfl
  | cons a tl ih =>
    cases h95 : a == 95 with
    | true => simp only [collapseGo, h95, if_true]; exact ih
    | false => simp [collapseGo, h95, headNotUS]

theorem noDUB_collapseGo : ∀ (b : Bool) (l : List Nat), noDUB (collapseGo b l) = true := by
  intro b l
  induction l generalizing b with
  | nil => rfl
  | cons a tl ih =>
    cases h95 : a == 95 with
    | true =>
      cases b with
      | true => simp only [collapseGo, h95, if_true]; exact ih true
      | false =>
        simp only [collapseGo, h95, if_true, Bool.false_eq_true, if_false]
        exact noDUB_cons_of (Or.inr (headNotUS_collapseGo_true tl)) (ih true)
    | false =>
      simp only [collapseGo, h95, Bool.false_eq_true, if_false]
      refine noDUB_cons_of (Or.inl ?_) (ih false)
      simpa using h95

theorem collapseGo_id : ∀ (l : List Nat), noDUB l = true →
    collapseGo false l = l ∧ (headNotUS l = true → collapseGo true l = l) := by
  intro l
  induction l with
  | nil => exact fun _ => ⟨rfl, fun _ => rfl⟩
  | cons a tl ih =>
    intro h
    have htl := noDUB_tail h
    have ihh := ih htl
    cases h95 : a == 95 with
    | false =>
      constructor
      · simp only [collapseGo, h95, Bool.false_eq_true, if_false]
        rw [ihh.1]
      · intro _
        simp only [collapseGo, h95, Bool.false_eq_true, if_false]
        rw [ihh.1]
    | true =>
      have ha : a = 95 := by simpa using h95
      have htrue : collapseGo true tl = tl := by
        cases tl with
        | nil => rfl
        | cons b bs =>
          apply ihh.2
          simp only [noDUB, Bool.and_eq_true, Bool.not_eq_true'] at h
          have hb : b ≠ 95 := by
            intro hb
            rw [ha, hb] at h
            simp at h
          simp [headNotUS, hb]
      constructor
      · simp only [collapseGo, h95, if_true, Bool.false_eq_true, if_false]
        rw [htrue, ha]
      · intro hh
        rw [ha] at hh
        simp [headNotUS] at hh

theorem dropWhile95_id {l : List Nat} (h : headNotUS l = true) :
    l.dropWhile (fun c => c == 95) = l := by
  cases l with
  | nil => rfl
  | cons a tl =>
    simp only [headNotUS, Bool.not_eq_true'] at h
    simp [List.dropWhile_cons, h]

theorem headNotUS_dropWhile95 : ∀ (l : List Nat),
    headNotUS (l.dropWhile (fun c => c == 95)) = true := by
  intro l
  induction l with
  | nil => rfl
  | cons a tl ih =>
    cases h95 : a == 95 with
    | true => simp only [List.dropWhile_cons, h95, if_true]; exact ih
    | false => simp [List.dropWhile_cons, h95, headNotUS]

theorem noDUB_dropWhile (p : Nat → Bool) : ∀ (l : List Nat), noDUB l = true →
    noDUB (l.dropWhile p) = true := by
  intro l
  induction l with
  | nil => intro _; rfl
  | cons a tl ih =>
    intro h
    cases hp : p a with
    | true => simp only [List.dropWhile_cons, hp, if_true]; exact ih (noDUB_tail h)
    | false => simpa [List.dropWhile_cons, hp] using h

theorem lastNotSat_dropTrailing (p : Nat → Bool) : ∀ (l : List Nat),
    lastNotSat p (dropTrailing p l) = true := by
  intro l
  induction l with
  | nil => rfl
  | cons a tl ih =>
    simp only [dropTrailing]
    cases hdt : dropTrailing p tl with
    | nil =>
      cases hp : p a with
      | true => simp [hp, lastNotSat]
      | false => simp [hp, lastNotSat]
    | cons r rs =>
      rw [hdt] at ih
      simpa [lastNotSat] using ih

theorem dropTrailing_id (p : Nat → Bool) : ∀ (l : List Nat),
    lastNotSat p l = true → dropTrailing p l = l := by
  intro l
  induction l with
  | nil => intro _; rfl
  | cons a tl ih =>
    intro h
    cases tl with
    | nil =>
      simp only [lastNotSat, Bool.not_eq_true'] at h
      simp [dropTrailing, h]
    | cons b bs =>
      have htl : dropTrailing p (b :: bs) = b :: bs := by
        apply ih
        simpa [lastNotSat] using h
      simp only [dropTrailing] at htl ⊢
      rw [htl]

theorem head_dropTrailing (p : Nat → Bool) : ∀ (l : List Nat),
    dropTrailing p l = [] ∨ (dropTrailing p l).head? = l.head? := by
  intro l
  cases l with
  | nil => exact Or.inl rfl
  | cons a tl =>
    simp only [dropTrailing]
    cases hdt : dropTrailing p tl with
    | nil =>
      cases hp : p a with
      | true => exact Or.inl (by simp [hp])
      | false => exact Or.inr (by simp [hp])
    | cons r rs => exact Or.inr (by simp)

theorem headNotUS_dropTrailing (p : Nat → Bool) {l : List Nat} (h : headNotUS l = true) :
    headNotUS (dropTrailing p l) = true := by
  rcases head_dropTrailing p l with he | he
  · rw [he]; rfl
  · cases hdt : dropTrailing p l with
    | nil => rfl
    | cons x xs =>
      rw [hdt] at he
      cases l with
      | nil => simp [dropTrailing] at hdt
      | cons a tl =>
        simp only [List.head?_cons] at he
        have : x = a := by injection he
        rw [this]
        simpa [headNotUS] using h

theorem noDUB_dropTrailing (p : Nat → Bool) : ∀ (l : List Nat), noDUB l = true →
    noDUB (dropTrailing p l) = true := by
  intro l
  induction l with
  | nil => intro _; rfl
  | cons a tl ih =>
    intro h
    simp only [dropTrailing]
    cases hdt : dropTrailing p tl with
    | nil =>
      cases hp : p a with
      | true => simp [hp, noDUB]
      | false => simp [hp, noDUB]
    | cons r rs =>
      apply noDUB_cons_of _ (by rw [← hdt]; exact ih (noDUB_tail h))
      by_cases ha : a = 95
      · right
        rcases head_dropTrailing p tl with he | he
        · rw [he] at hdt; exact absurd hdt (by simp)
        · rw [hdt] at he
          cases tl with
          | nil => simp [dropTrailing] at hdt
          | cons b bs =>
            simp only [List.head?_cons] at he
            have hrb : r = b := by injection he
            have h2 := h
            rw [ha] at h2
            simp only [noDUB, Bool.and_eq_true] at h2
            have hb : b ≠ 95 := by
              intro hbe
              rw [hbe] at h2
              simp at h2
            simp [headNotUS, hrb, hb]
      · exact Or.inl ha

theorem snake_chars (l : List Nat) :
    ∀ c ∈ snake_case_convert l, isWSH c = false ∧ isUpperAZ c = false := by
  intro c hc
  unfold snake_case_convert at hc
  have h1 := mem_stripUnderscores _ c hc
  rcases mem_collapseGo false _ c h1 with h2 | h2
  · unfold lowerAll at h2
    rcases List.mem_map.1 h2 with ⟨d, hd, hdc⟩
    have hdw : isWSH d = false := by
      rcases mem_subCamel2 _ d hd with h3 | h3
      · rcases mem_subCamel1 _ d h3 with h4 | h4
        · exact mem_subSpacesGo false l d h4
        · rw [h4]; decide
      · rw [h3]; decide
    rw [← hdc]
    exact ⟨toLow_not_wsh hdw, toLow_not_upper d⟩
  · rw [h2]; exact ⟨by decide, by decide⟩

theorem snake_noDUB (l : List Nat) : noDUB (snake_case_convert l) = true := by
  unfold snake_case_convert stripUnderscores collapseUnderscores
  exact noDUB_dropTrailing _ _ (noDUB_dropWhile _ _ (noDUB_collapseGo false _))

theorem snake_headNotUS (l : List Nat) : headNotUS (snake_case_convert l) = true := by
  unfold snake_case_convert stripUnderscores
  exact headNotUS_dropTrailing _ (headNotUS_dropWhile95 _)

theorem snake_lastNotUS (l : List Nat) :
    lastNotSat (fun c => c == 95) (snake_case_convert l) = true := by
  unfold snake_case_convert stripUnderscores
  exact lastNotSat_dropTrailing _ _

theorem stripUnderscores_id {l : List Nat}
    (h1 : headNotUS l = true) (h2 : lastNotSat (fun c => c == 95) l = true) :
    stripUnderscores l = l := by
  unfold stripUnderscores
  rw [dropWhile95_id h1]
  exact dropTrailing_id _ _ h2

theorem subSpacesGo_allUS : ∀ (l : List Nat), (∀ c ∈ l, isWSH c = true ∨ c = 95) →
    ∀ b, ∀ c ∈ subSpacesGo b l, c = 95 := by
  intro l
  induction l with
  | nil => intro _ b c hc; simp [subSpacesGo] at hc
  | cons a tl ih =>
    intro h b c hc
    have htl := fun c hc2 => h c (List.mem_cons_of_mem a hc2)
    cases ha : isWSH a with
    | true =>
      cases b with
      | true =>
        simp only [subSpacesGo, ha, if_true] at hc
        exact ih htl true c hc
      | false =>
        simp [subSpacesGo, ha] at hc
        rcases hc with hc | hc
        · exact hc
        · exact ih htl true c hc
    | false =>
      have ha95 : a = 95 := by
        rcases h a (by simp) with h2 | h2
        · rw [h2] at ha; cases ha
        · exact h2
      simp [subSpacesGo, ha] at hc
      rcases hc with hc | hc
      · rw [hc]; exact ha95
      · exact ih htl false c hc

theorem dropWhile95_all {l : List Nat} (h : ∀ c ∈ l, c = 95) :
    l.dropWhile (fun c => c == 95) = [] := by
  induction l with
  | nil => rfl
  | cons a tl ih =>
    have ha : a = 95 := h a (by simp)
    rw [List.dropWhile_cons]
    simp only [ha]
    simpa using ih (fun c hc => h c (List.mem_cons_of_mem a hc))

theorem stripUnderscores_all95 {l : List Nat} (h : ∀ c ∈ l, c = 95) :
    stripUnderscores l = [] := by
  unfold stripUnderscores
  rw [dropWhile95_all h]
  rfl

/-! Claim theorems. -/

/-- C3: for every column label, `snake_case_convert` is idempotent —
applying it to its own output returns that output unchanged. -/
theorem c3_snake_idempotent (l : List Nat) :
    snake_case_convert (snake_case_convert l) = snake_case_convert l := by
  have hch := snake_chars l
  have hwsh : ∀ c ∈ snake_case_convert l, isWSH c = false := fun c hc => (hch c hc).1
  have hup : ∀ c ∈ snake_case_convert l, isUpperAZ c = false := fun c hc => (hch c hc).2
  have e1 : subSpaces (snake_case_convert l) = snake_case_convert l :=
    subSpacesGo_id _ hwsh false
  have e2 : subCamel1 (snake_case_convert l) = snake_case_convert l :=
    subCamel1_id _ hup
  have e3 : subCamel2 (snake_case_convert l) = snake_case_convert l :=
    subCamel2_id _ hup
  have e4 : lowerAll (snake_case_convert l) = snake_case_convert l :=
    lowerAll_id _ hup
  have e5 : collapseUnderscores (snake_case_convert l) = snake_case_convert l :=
    (collapseGo_id _ (snake_noDUB l)).1
  have e6 : stripUnderscores (snake_case_convert l) = snake_case_convert l :=
    stripUnderscores_id (snake_headNotUS l) (snake_lastNotUS l)
  calc snake_case_convert (snake_case_convert l)
      = stripUnderscores (collapseUnderscores (lowerAll (subCamel2 (subCamel1
          (subSpaces (snake_case_convert l)))))) := rfl
    _ = snake_case_convert l := by rw [e1, e2, e3, e4, e5, e6]

/-- C10: every output of `snake_case_convert` contains no ASCII uppercase
letter, no whitespace character, and no hyphen; it has no two consecutive
underscores; and it neither starts nor ends with an underscore. -/
theorem c10_snake_output_invariant (l : List Nat) :
    (∀ c ∈ snake_case_convert l, isUpperAZ c = false ∧ isPySpace c = false ∧ c ≠ 45) ∧
    noDUB (snake_case_convert l) = true ∧
    headNotUS (snake_case_convert l) = true ∧
    lastNotSat (fun c => c == 95) (snake_case_convert l) = true := by
  refine ⟨?_, snake_noDUB l, snake_headNotUS l, snake_lastNotUS l⟩
  intro c hc
  have h := snake_chars l c hc
  have hw := h.1
  simp only [isWSH, Bool.or_eq_false_iff, beq_eq_false_iff_ne] at hw
  exact ⟨h.2, hw.1, hw.2⟩

/-- C4 counterexample: `snake_case_convert` maps `"Price (USD)"` to
`"price_(usd)"`, not to `"price_usd"` as the claim states — the parentheses
are kept, since only whitespace and hyphens are replaced. -/
theorem c4_price_usd_counterexample :
    snake_case_convert (ofString "Price (USD)") = ofString "price_(usd)" ∧
    ofString "price_(usd)" ≠ ofString "price_usd" := by
  constructor
  · simp [snake_case_convert, ofString, subSpaces, subSpacesGo, subCamel1, subCamel2,
      lowerAll, toLow, collapseUnderscores, collapseGo, stripUnderscores, dropTrailing,
      isWSH, isPySpace, isUpperAZ, isLowerAZ, isDigit09, List.takeWhile, List.dropWhile]
  · decide

/-- C4 amended: `snake_case_convert "UserFirstName" = "user_first_name"` and
`snake_case_convert "Price (USD)" = "price_(usd)"` (the parentheses survive
normalization). -/
theorem c4_scenarios_amended :
    snake_case_convert (ofString "UserFirstName") = ofString "user_first_name" ∧
    snake_case_convert (ofString "Price (USD)") = ofString "price_(usd)" := by
  constructor
  · simp [snake_case_convert, ofString, subSpaces, subSpacesGo, subCamel1, subCamel2,
      lowerAll, toLow, collapseUnderscores, collapseGo, stripUnderscores, dropTrailing,
      isWSH, isPySpace, isUpperAZ, isLowerAZ, isDigit09, List.takeWhile, List.dropWhile]
  · simp [snake_case_convert, ofString, subSpaces, subSpacesGo, subCamel1, subCamel2,
      lowerAll, toLow, collapseUnderscores, collapseGo, stripUnderscores, dropTrailing,
      isWSH, isPySpace, isUpperAZ, isLowerAZ, isDigit09, List.takeWhile, List.dropWhile]

/-- C5 counterexample: on the all-underscore input `"___"`, which normalizes
to the empty string, `snake_case_convert` returns the empty name instead of
rejecting the input with an error. -/
theorem c5_blank_result_counterexample :
    snake_case_convert (ofString "___") = ([] : List Nat) := by
  simp [snake_case_convert, ofString, subSpaces, subSpacesGo, subCamel1, subCamel2,
    lowerAll, toLow, collapseUnderscores, collapseGo, stripUnderscores, dropTrailing,
    isWSH, isPySpace, isUpperAZ, isLowerAZ, isDigit09, List.takeWhile, List.dropWhile]

/-- C5 amended: on every input consisting only of whitespace, hyphens and
underscores, `snake_case_convert` returns the empty name (the function is
total and raises no error). -/
theorem c5_empty_normalization_amended (l : List Nat)
    (h : ∀ c ∈ l, isWSH c = true ∨ c = 95) :
    snake_case_convert l = [] := by
  have hall : ∀ c ∈ subSpaces l, c = 95 := subSpacesGo_allUS l h false
  have hup : ∀ c ∈ subSpaces l, isUpperAZ c = false := by
    intro c hc; rw [hall c hc]; decide
  have e2 : subCamel1 (subSpaces l) = subSpaces l := subCamel1_id _ hup
  have e3 : subCamel2 (subSpaces l) = subSpaces l := subCamel2_id _ hup
  have e4 : lowerAll (subSpaces l) = subSpaces l := lowerAll_id _ hup
  have hall2 : ∀ c ∈ collapseUnderscores (subSpaces l), c = 95 := by
    intro c hc
    rcases mem_collapseGo false _ c hc with h2 | h2
    · exact hall c h2
    · exact h2
  calc snake_case_convert l
      = stripUnderscores (collapseUnderscores (lowerAll (subCamel2 (subCamel1
          (subSpaces l))))) := rfl
    _ = stripUnderscores (collapseUnderscores (subSpaces l)) := by rw [e2, e3, e4]
    _ = [] := stripUnderscores_all95 hall2

/-- C5 amended witness: the concrete input `"_- _"` consists only of
whitespace, hyphens and underscores, and normalizes to the empty name. -/
theorem c5_empty_normalization_amended_witness :
    (∀ c ∈ ofString "_- _", isWSH c = true ∨ c = 95) ∧
    snake_case_convert (ofString "_- _") = [] :=
  ⟨by decide, c5_empty_normalization_amended _ (by decide)⟩

/-- C7: whenever the text-generation collaborator fails with any error,
`generate_natural_column_names` returns the raw labels normalized by
`snake_case_convert` instead of propagating the error. -/
theorem c7_llm_fallback (llm : LlmCollaborator) (columns : List (List Nat)) (e : String)
    (h : llm columns = Except.error e) :
    generate_natural_column_names llm columns = columns.map snake_case_convert := by
  unfold generate_natural_column_names
  rw [h]

/-- C7 witness: a collaborator that always fails still yields the normalized
raw labels. -/
theorem c7_llm_fallback_witness :
    (fun _ => (Except.error "service unavailable" : Except String (List (List Nat))))
        [ofString "Article Title"] = Except.error "service unavailable" ∧
    generate_natural_column_names (fun _ => Except.error "service unavailable")
        [ofString "Article Title"] = [ofString "Article Title"].map snake_case_convert :=
  ⟨rfl, c7_llm_fallback _ _ _ rfl⟩

/-- C2 counterexample: on a frame with the unmapped dtype `complex128`,
`create_table_from_csv` raises, but the destructive `DROP TABLE IF EXISTS`
statement has already been executed — so the error is not raised before any
destination mutation. -/
theorem c2_drop_before_error_counterexample :
    (create_table_from_csv [(ofString "payload", "complex128")] "tourism_data").2 =
      some "KeyError: unmapped dtype" ∧
    SqlAction.dropTableIfExists "tourism_data" ∈
      (create_table_from_csv [(ofString "payload", "complex128")] "tourism_data").1 := by
  constructor
  · rfl
  · decide

/-- C2 amended: on a frame with an unmapped dtype, `create_table_from_csv`
aborts with an error and creates no table, but only after the pre-existing
table of the same name has been dropped: the executed statements are exactly
the single `DROP TABLE IF EXISTS`. -/
theorem c2_unmapped_dtype_amended (cols : List (List Nat × String)) (tn : String)
    (h : mapColumnDefs cols = none) :
    create_table_from_csv cols tn =
      ([SqlAction.dropTableIfExists tn], some "KeyError: unmapped dtype") ∧
    ∀ t cdefs, SqlAction.createTable t cdefs ∉ (create_table_from_csv cols tn).1 := by
  have he : create_table_from_csv cols tn =
      ([SqlAction.dropTableIfExists tn], some "KeyError: unmapped dtype") := by
    unfold create_table_from_csv
    rw [h]
  refine ⟨he, ?_⟩
  intro t cdefs
  rw [he]
  simp

/-- C2 amended witness: concrete unmapped dtype `complex128`. -/
theorem c2_unmapped_dtype_amended_witness :
    mapColumnDefs [(ofString "payload", "complex128")] = none ∧
    create_table_from_csv [(ofString "payload", "complex128")] "tourism_data" =
      ([SqlAction.dropTableIfExists "tourism_data"], some "KeyError: unmapped dtype") :=
  ⟨by decide, (c2_unmapped_dtype_amended _ _ (by decide)).1⟩

theorem mapColumnDefs_spec : ∀ (cols defs : List (List Nat × String)),
    mapColumnDefs cols = some defs →
    defs.map Prod.fst = cols.map Prod.fst ∧
    List.Forall₂ (fun p q => dtype_mapping p.2 = some q.2) cols defs := by
  intro cols
  induction cols with
  | nil =>
    intro defs h
    simp only [mapColumnDefs, Option.some.injEq] at h
    subst h
    exact ⟨rfl, List.Forall₂.nil⟩
  | cons p rest ih =>
    intro defs h
    obtain ⟨n, d⟩ := p
    simp only [mapColumnDefs] at h
    cases hd : dtype_mapping d with
    | none => rw [hd] at h; simp at h
    | some t =>
      rw [hd] at h
      cases hr : mapColumnDefs rest with
      | none => rw [hr] at h; simp at h
      | some r =>
        rw [hr] at h
        simp only [Option.some.injEq] at h
        subst h
        obtain ⟨h1, h2⟩ := ih r hr
        exact ⟨by simp [h1], List.Forall₂.cons (by simpa using hd) h2⟩

/-- C6: when every column dtype is mapped, the created table consists of the
surrogate auto-increment integer primary key column prepended to the source
columns in their original order, each with the destination type given by the
fixed dtype mapping (int64 to BIGINT, float64 to DECIMAL(10,2), object to
TEXT, bool to BOOLEAN, datetime64[ns] to DATETIME, timedelta[ns] to TIME). -/
theorem c6_create_table_schema (cols : List (List Nat × String)) (tn : String)
    (defs : List (List Nat × String)) (h : mapColumnDefs cols = some defs) :
    create_table_from_csv cols tn =
      ([SqlAction.dropTableIfExists tn,
        SqlAction.createTable tn
          ((ofString "id", "INT AUTO_INCREMENT PRIMARY KEY") :: defs)], none) ∧
    defs.map Prod.fst = cols.map Prod.fst ∧
    List.Forall₂ (fun p q => dtype_mapping p.2 = some q.2) cols defs ∧
    dtype_mapping "int64" = some "BIGINT" ∧
    dtype_mapping "float64" = some "DECIMAL(10,2)" ∧
    dtype_mapping "object" = some "TEXT" ∧
    dtype_mapping "bool" = some "BOOLEAN" ∧
    dtype_mapping "datetime64[ns]" = some "DATETIME" ∧
    dtype_mapping "timedelta[ns]" = some "TIME" := by
  obtain ⟨h1, h2⟩ := mapColumnDefs_spec cols defs h
  refine ⟨?_, h1, h2, rfl, rfl, rfl, rfl, rfl, rfl⟩
  unfold create_table_from_csv
  rw [h]

/-- C6 witness: a frame exercising all six mapped dtypes. -/
theorem c6_create_table_schema_witness :
    mapColumnDefs
        [(ofString "a", "int64"), (ofString "b", "float64"), (ofString "c", "object"),
         (ofString "d", "bool"), (ofString "e", "datetime64[ns]"),
         (ofString "f", "timedelta[ns]")] =
      some [(ofString "a", "BIGINT"), (ofString "b", "DECIMAL(10,2)"),
            (ofString "c", "TEXT"), (ofString "d", "BOOLEAN"),
            (ofString "e", "DATETIME"), (ofString "f", "TIME")] ∧
    create_table_from_csv
        [(ofString "a", "int64"), (ofString "b", "float64"), (ofString "c", "object"),
         (ofString "d", "bool"), (ofString "e", "datetime64[ns]"),
         (ofString "f", "timedelta[ns]")] "tourism_data" =
      ([SqlAction.dropTableIfExists "tourism_data",
        SqlAction.createTable "tourism_data"
          ((ofString "id", "INT AUTO_INCREMENT PRIMARY KEY") ::
           [(ofString "a", "BIGINT"), (ofString "b", "DECIMAL(10,2)"),
            (ofString "c", "TEXT"), (ofString "d", "BOOLEAN"),
            (ofString "e", "DATETIME"), (ofString "f", "TIME")])], none) :=
  ⟨by decide, (c6_create_table_schema _ _ _ (by decide)).1⟩

/-- C9: a cell carrying the missing-value marker in a matched column is
emitted by the per-row loop of `insert_responses` as a record storing a
genuine null (`none`), which is distinct from an empty string. -/
theorem c9_null_cell_stored_null (qids : List (List Nat × Nat))
    (pre post : List (List Nat × Cell)) (q : List Nat) (qid : Nat)
    (h : lookupId qids q = some qid) :
    insert_responses_row qids (pre ++ (q, Cell.null) :: post) =
      insert_responses_row qids pre ++ (qid, (none : Option (List Nat))) ::
        insert_responses_row qids post ∧
    (none : Option (List Nat)) ≠ some [] := by
  refine ⟨?_, by simp⟩
  unfold insert_responses_row
  rw [List.filterMap_append]
  simp [List.filterMap_cons, h, storedOf]

/-- C9 witness: a single-cell row whose matched column holds the
missing-value marker. -/
theorem c9_null_cell_stored_null_witness :
    lookupId [(ofString "P1_Edad", 1)] (ofString "P1_Edad") = some 1 ∧
    insert_responses_row [(ofString "P1_Edad", 1)]
        ([] ++ (ofString "P1_Edad", Cell.null) :: []) =
      insert_responses_row [(ofString "P1_Edad", 1)] [] ++
        (1, (none : Option (List Nat))) ::
          insert_responses_row [(ofString "P1_Edad", 1)] [] :=
  ⟨by decide, (c9_null_cell_stored_null _ _ _ _ _ (by decide)).1⟩

/-- C8: the third spreadsheet column labeled `P3_Satisfaction` is registered
by the survey pipeline under the cleaned label `Satisfaction` together with
the source column letter `C`: `clean_question_text` strips the `P3_` prefix,
`excel_col_index_to_letter 3 = "C"`, and `insert_questions_get_ids` stores
that pair in the `questions` table. -/
theorem c8_survey_registration :
    excel_col_index_to_letter 3 = ofString "C" ∧
    clean_question_text (ofString "P3_Satisfaction") = ofString "Satisfaction" ∧
    (insert_questions_get_ids
        [ofString "P1_Nombre", ofString "Comentario", ofString "P3_Satisfaction"]
        create_tables_questions).1.rows =
      [{ id := 1, question_text := ofString "Nombre", excel_column_position := ofString "A" },
       { id := 2, question_text := ofString "Satisfaction",
         excel_column_position := ofString "C" }] := by
  refine ⟨?_, by decide, ?_⟩
  · simp [excel_col_index_to_letter, ofString]
  · simp [insert_questions_get_ids, runQuestionItems, questionItems, questionItemsGo,
      upsertQuestion, selectIdByText, create_tables_questions, clean_question_text,
      pyStripWS, dropTrailing, startsWithPNum, isDigit09, isPySpace,
      excel_col_index_to_letter, ofString, lookupId, List.find?]

/-- C1: evaluation of the upsert at a concrete label, against the `questions`
table created by `create_tables`. Registering the cleaned label `Edad`
(column `P1_Edad`) twice returns id 1 from both calls, but leaves TWO rows
with that label in the registry: `create_tables` declares no unique index on
`question_text`, so the `ON DUPLICATE KEY UPDATE` clause never applies and
the second insert adds a fresh row with id 2. -/
theorem c1_upsert_duplicate_row_eval :
    (insert_questions_get_ids [ofString "P1_Edad"] create_tables_questions).2 =
      [(ofString "P1_Edad", 1)] ∧
    (insert_questions_get_ids [ofString "P1_Edad"]
        (insert_questions_get_ids [ofString "P1_Edad"] create_tables_questions).1).2 =
      [(ofString "P1_Edad", 1)] ∧
    (insert_questions_get_ids [ofString "P1_Edad"]
        (insert_questions_get_ids [ofString "P1_Edad"] create_tables_questions).1).1.rows =
      [{ id := 1, question_text := ofString "Edad", excel_column_position := ofString "A" },
       { id := 2, question_text := ofString "Edad", excel_column_position := ofString "A" }] := by
  refine ⟨?_, ?_, ?_⟩ <;>
  simp [insert_questions_get_ids, runQuestionItems, questionItems, questionItemsGo,
      upsertQuestion, selectIdByText, create_tables_questions, clean_question_text,
      pyStripWS, dropTrailing, startsWithPNum, isDigit09, isPySpace,
      excel_col_index_to_letter, ofString, lookupId, List.find?]
